import Mathlib

/-!
Verification development for the prompt-repository management console
(`streamlit_app.py`). The Python functions relevant to the stated claims are
shallowly embedded as executable Lean definitions over `String`/`List`
(machine-independent: Python `str` operations are modelled on the underlying
character lists, ASCII case mapping as in the data actually handled by the
tool). Storage backends (S3 / Azure blob) are modelled as association lists
from keys to optionally-parseable documents; a `Bool` flag models a raised
connectivity error, `Option` models JSON parse failure.
-/

/- ===== String primitives modelled on the character data ===== -/

/-- Byte-wise (code-point) strict comparison of characters, the order Python
uses when comparing strings. -/
def charLtB (a b : Char) : Bool := Nat.blt a.toNat b.toNat

/-- Lexicographic strict comparison of character lists (Python string `<`). -/
def listLtB : List Char → List Char → Bool
  | [], [] => false
  | [], _ :: _ => true
  | _ :: _, [] => false
  | a :: as, b :: bs =>
    if charLtB a b then true else if charLtB b a then false else listLtB as bs

/-- Lexicographic strict comparison of strings (Python `s1 < s2`). -/
def strLtB (s t : String) : Bool := listLtB s.data t.data

/-- Python `str.lower` (ASCII case mapping). -/
def lowerS (s : String) : String := String.mk (s.data.map Char.toLower)

/-- Python `str.upper` (ASCII case mapping). -/
def upperS (s : String) : String := String.mk (s.data.map Char.toUpper)

/-- Python whitespace test used by `str.strip`. -/
def isPySpace (c : Char) : Bool :=
  c == ' ' || c == '\t' || c == '\n' || c == '\r' || c == '\x0b' || c == '\x0c'

/-- Python `str.strip`: remove leading and trailing whitespace. -/
def stripS (s : String) : String :=
  String.mk (((s.data.dropWhile isPySpace).reverse.dropWhile isPySpace).reverse)

/-- Python `str.startswith`. -/
def startsWithS (s pre : String) : Bool := pre.data.isPrefixOf s.data

/-- Python `"\n".join`. -/
def joinNL : List String → String
  | [] => ""
  | [s] => s
  | s :: rest => s ++ "\n" ++ joinNL rest

/- ===== Order lemmas for the lexicographic comparison ===== -/

theorem charLtB_iff (a b : Char) : charLtB a b = true ↔ a.toNat < b.toNat := by
  unfold charLtB
  rw [Nat.blt_eq]

theorem charLtB_irrefl (c : Char) : charLtB c c = false := by
  unfold charLtB
  cases hb : Nat.blt c.toNat c.toNat with
  | false => rfl
  | true =>
    rw [Nat.blt_eq] at hb
    exact absurd hb (Nat.lt_irrefl _)

theorem charLtB_false_iff (a b : Char) : charLtB a b = false ↔ ¬ a.toNat < b.toNat := by
  rw [← Bool.not_eq_true, charLtB_iff]

theorem listLtB_append_left : ∀ (p u v : List Char),
    listLtB u v = true → listLtB (p ++ u) (p ++ v) = true
  | [], _, _, h => h
  | c :: p, u, v, h => by
    simp only [List.cons_append, listLtB, charLtB_irrefl, if_false, Bool.false_eq_true]
    exact listLtB_append_left p u v h

theorem listLtB_append_congr : ∀ (u v x y : List Char),
    listLtB u v = true → u.length = v.length → listLtB (u ++ x) (v ++ y) = true
  | [], [], _, _, h, _ => by simp [listLtB] at h
  | [], _ :: _, _, _, _, hlen => by simp at hlen
  | _ :: _, [], _, _, _, hlen => by simp at hlen
  | a :: as, b :: bs, x, y, h, hlen => by
    simp only [listLtB] at h
    simp only [List.cons_append, listLtB]
    cases hab : charLtB a b with
    | true => simp [hab]
    | false =>
      cases hba : charLtB b a with
      | true =>
        rw [hab, hba] at h
        simp at h
      | false =>
        rw [hab, hba] at h
        simp only [Bool.false_eq_true, if_false] at h ⊢
        exact listLtB_append_congr as bs x y h (by simpa using hlen)

theorem listLtB_cons_same (c : Char) (u v : List Char) :
    listLtB (c :: u) (c :: v) = listLtB u v := by
  simp [listLtB, charLtB_irrefl]

theorem listLtB_asymm : ∀ u v : List Char, listLtB u v = true → listLtB v u = false
  | [], [], h => by simpa [listLtB] using h
  | [], _ :: _, _ => by simp [listLtB]
  | _ :: _, [], h => by simpa [listLtB] using h
  | a :: as, b :: bs, h => by
    simp only [listLtB] at h ⊢
    rcases Nat.lt_trichotomy a.toNat b.toNat with hlt | heq | hgt
    · have h1 : charLtB a b = true := (charLtB_iff a b).mpr hlt
      have h2 : charLtB b a = false := (charLtB_false_iff b a).mpr (by omega)
      rw [h1, h2]
      simp
    · have h1 : charLtB a b = false := (charLtB_false_iff a b).mpr (by omega)
      have h2 : charLtB b a = false := (charLtB_false_iff b a).mpr (by omega)
      rw [h1, h2] at h ⊢
      simp only [Bool.false_eq_true, if_false] at h ⊢
      exact listLtB_asymm as bs h
    · have h1 : charLtB a b = false := (charLtB_false_iff a b).mpr (by omega)
      have h2 : charLtB b a = true := (charLtB_iff b a).mpr hgt
      rw [h1, h2] at h
      simp at h

theorem listLtB_false_trans : ∀ u v w : List Char,
    listLtB u v = false → listLtB v w = false → listLtB u w = false
  | [], [], w, _, h2 => h2
  | [], _ :: _, _, h1, _ => by simp [listLtB] at h1
  | _ :: _, _, [], _, _ => by simp [listLtB]
  | _ :: _, [], _ :: _, _, h2 => by simp [listLtB] at h2
  | a :: as, b :: bs, c :: cs, h1, h2 => by
    simp only [listLtB] at h1 h2 ⊢
    have hab : charLtB a b = false := by
      cases hx : charLtB a b with
      | false => rfl
      | true => rw [hx] at h1; simpa using h1
    have hbc : charLtB b c = false := by
      cases hx : charLtB b c with
      | false => rfl
      | true => rw [hx] at h2; simpa using h2
    rw [hab] at h1
    rw [hbc] at h2
    simp only [Bool.false_eq_true, if_false] at h1 h2
    have hab2 : ¬ a.toNat < b.toNat := (charLtB_false_iff a b).mp hab
    have hbc2 : ¬ b.toNat < c.toNat := (charLtB_false_iff b c).mp hbc
    have hac : charLtB a c = false := (charLtB_false_iff a c).mpr (by omega)
    rw [hac]
    simp only [Bool.false_eq_true, if_false]
    cases hca : charLtB c a with
    | true => simp
    | false =>
      simp only [Bool.false_eq_true, if_false]
      have hca2 : ¬ c.toNat < a.toNat := (charLtB_false_iff c a).mp hca
      have hba : charLtB b a = false := (charLtB_false_iff b a).mpr (by omega)
      have hcb : charLtB c b = false := (charLtB_false_iff c b).mpr (by omega)
      rw [hba] at h1
      rw [hcb] at h2
      simp only [Bool.false_eq_true, if_false] at h1 h2
      exact listLtB_false_trans as bs cs h1 h2

/- ===== Timestamps and version keys (C1) ===== -/

/-- Decimal digit character, as produced by Python zero-padded `strftime`
fields (inputs are always in `0..9`). -/
def digitChar : Nat → Char
  | 0 => '0'
  | 1 => '1'
  | 2 => '2'
  | 3 => '3'
  | 4 => '4'
  | 5 => '5'
  | 6 => '6'
  | 7 => '7'
  | 8 => '8'
  | _ => '9'

/-- `padNum k n` is the decimal rendering of `n` zero-padded to width `k`
(the behaviour of the `%Y`, `%m`, `%d`, `%H`, `%M`, `%S` directives for
in-range values). -/
def padNum : Nat → Nat → List Char
  | 0, _ => []
  | k + 1, n => padNum k (n / 10) ++ [digitChar (n % 10)]

@[simp] theorem padNum_length : ∀ (k n : Nat), (padNum k n).length = k
  | 0, _ => rfl
  | k + 1, n => by simp [padNum, padNum_length k]

theorem digitChar_ltB : ∀ x, x < 10 → ∀ y, y < 10 → x < y →
    charLtB (digitChar x) (digitChar y) = true := by decide

theorem padNum_ltB : ∀ (k a b : Nat), a < b → b < 10 ^ k →
    listLtB (padNum k a) (padNum k b) = true := by
  intro k
  induction k with
  | zero =>
    intro a b hab hb
    exact absurd hb (by omega)
  | succ k ih =>
    intro a b hab hb
    have hq : a / 10 ≤ b / 10 := Nat.div_le_div_right (Nat.le_of_lt hab)
    rcases Nat.lt_or_ge (a / 10) (b / 10) with hlt | hge
    · have hbq : b / 10 < 10 ^ k := by
        have hpow : 10 ^ (k + 1) = 10 ^ k * 10 := by rw [pow_succ]
        rw [hpow] at hb
        omega
      exact listLtB_append_congr _ _ _ _ (ih (a / 10) (b / 10) hlt hbq)
        (by simp)
    · have hq2 : a / 10 = b / 10 := by omega
      have hr : a % 10 < b % 10 := by omega
      show listLtB (padNum k (a / 10) ++ [digitChar (a % 10)])
        (padNum k (b / 10) ++ [digitChar (b % 10)]) = true
      rw [hq2]
      apply listLtB_append_left
      have hd := digitChar_ltB (a % 10) (by omega) (b % 10) (by omega) hr
      simp [listLtB, hd]

/-- A civil timestamp at second precision (the relevant fields of a Python
`datetime`). -/
structure Timestamp where
  year : Nat
  month : Nat
  day : Nat
  hour : Nat
  minute : Nat
  second : Nat
deriving DecidableEq

/-- Field ranges guaranteed by `datetime` (`MINYEAR = 1`, `MAXYEAR = 9999`). -/
def Timestamp.Valid (t : Timestamp) : Prop :=
  1 ≤ t.year ∧ t.year ≤ 9999 ∧ 1 ≤ t.month ∧ t.month ≤ 12 ∧
  1 ≤ t.day ∧ t.day ≤ 31 ∧ t.hour ≤ 23 ∧ t.minute ≤ 59 ∧ t.second ≤ 59

/-- Chronological order at second resolution (lexicographic on the fields). -/
def Timestamp.Lt (s t : Timestamp) : Prop :=
  s.year < t.year ∨ (s.year = t.year ∧ (s.month < t.month ∨ (s.month = t.month ∧
  (s.day < t.day ∨ (s.day = t.day ∧ (s.hour < t.hour ∨ (s.hour = t.hour ∧
  (s.minute < t.minute ∨ (s.minute = t.minute ∧ s.second < t.second)))))))))

instance (t : Timestamp) : Decidable t.Valid := by
  unfold Timestamp.Valid
  infer_instance

instance (s t : Timestamp) : Decidable (s.Lt t) := by
  unfold Timestamp.Lt
  infer_instance

/-- `datetime.now(timezone.utc).strftime("%Y%m%d_%H%M%S")`. -/
def fmtTimestamp (t : Timestamp) : List Char :=
  padNum 4 t.year ++ (padNum 2 t.month ++ (padNum 2 t.day ++
    ('_' :: (padNum 2 t.hour ++ (padNum 2 t.minute ++ padNum 2 t.second)))))

def fmtTimestampStr (t : Timestamp) : String := String.mk (fmtTimestamp t)

@[simp] theorem fmtTimestamp_length (t : Timestamp) : (fmtTimestamp t).length = 15 := by
  simp [fmtTimestamp]

theorem fmtTimestamp_ltB (t1 t2 : Timestamp) (h1 : t1.Valid) (h2 : t2.Valid)
    (h : Timestamp.Lt t1 t2) : listLtB (fmtTimestamp t1) (fmtTimestamp t2) = true := by
  obtain ⟨hy1a, hy1b, hmo1a, hmo1b, hd1a, hd1b, hh1, hmi1, hs1⟩ := h1
  obtain ⟨hy2a, hy2b, hmo2a, hmo2b, hd2a, hd2b, hh2, hmi2, hs2⟩ := h2
  have p2 : (10 : Nat) ^ 2 = 100 := by norm_num
  have p4 : (10 : Nat) ^ 4 = 10000 := by norm_num
  unfold fmtTimestamp
  rcases h with hy | ⟨hy, h⟩
  · exact listLtB_append_congr _ _ _ _ (padNum_ltB 4 _ _ hy (by omega)) (by simp)
  · rw [hy]
    apply listLtB_append_left
    rcases h with hmo | ⟨hmo, h⟩
    · exact listLtB_append_congr _ _ _ _ (padNum_ltB 2 _ _ hmo (by omega)) (by simp)
    · rw [hmo]
      apply listLtB_append_left
      rcases h with hd | ⟨hd, h⟩
      · exact listLtB_append_congr _ _ _ _ (padNum_ltB 2 _ _ hd (by omega)) (by simp)
      · rw [hd]
        apply listLtB_append_left
        rw [listLtB_cons_same]
        rcases h with hh | ⟨hh, h⟩
        · exact listLtB_append_congr _ _ _ _ (padNum_ltB 2 _ _ hh (by omega)) (by simp)
        · rw [hh]
          apply listLtB_append_left
          rcases h with hmi | ⟨hmi, hs⟩
          · exact listLtB_append_congr _ _ _ _ (padNum_ltB 2 _ _ hmi (by omega)) (by simp)
          · rw [hmi]
            apply listLtB_append_left
            exact padNum_ltB 2 _ _ hs (by omega)

/-- `get_blob_prefix` (streamlit_app.py lines 121-126). -/
def get_blob_prefix (appName : String) : String :=
  if lowerS appName = "mmx" then "prompt_repo_" else lowerS appName ++ "_prompt_repo_"

/-- The key minted by `upload_to_s3` (lines 191-196): the prefix choice is
inlined in the source exactly as here. -/
def upload_key_s3 (appName : String) (t : Timestamp) : String :=
  if lowerS appName = "mmx" then "prompt_repo_" ++ fmtTimestampStr t ++ ".json"
  else lowerS appName ++ "_prompt_repo_" ++ fmtTimestampStr t ++ ".json"

/-- The blob name minted by `upload_to_azure` (lines 300-305), written with the
same inline conditional as the source. -/
def upload_key_azure (appName : String) (t : Timestamp) : String :=
  if lowerS appName = "mmx" then "prompt_repo_" ++ fmtTimestampStr t ++ ".json"
  else lowerS appName ++ "_prompt_repo_" ++ fmtTimestampStr t ++ ".json"

theorem key_ltB_of_fmt_ltB (p j : List Char) (t1 t2 : Timestamp)
    (h : listLtB (fmtTimestamp t1) (fmtTimestamp t2) = true) :
    listLtB (p ++ (fmtTimestamp t1 ++ j)) (p ++ (fmtTimestamp t2 ++ j)) = true := by
  apply listLtB_append_left
  exact listLtB_append_congr _ _ _ _ h (by simp)

/- ===== Repository document data model ===== -/

/-- A Prompt record (name, description, location_identifier, content lines). -/
structure PromptRec where
  name : String
  description : String
  location_identifier : String
  content : List String
deriving DecidableEq

/-- An Application record; `prompts?` is `none` when the JSON object has no
"prompts" key. -/
structure AppRec where
  name : String
  prompts? : Option (List PromptRec)
deriving DecidableEq

/-- The root repository document: `{"APPS": [...]}`. -/
structure PromptDoc where
  APPS : List AppRec
deriving DecidableEq

/-- One stored object in a bucket / container: a key and its content;
`blob = none` models content that fails JSON parsing. -/
structure StoredBlob where
  key : String
  blob : Option PromptDoc
deriving DecidableEq

/-- `{"APPS": []}`, returned by both fetch-latest functions on any caught
exception (lines 183-185 and 292-294). -/
def failMarker : PromptDoc := PromptDoc.mk []

/-- `{"APPS": [{"name": app_name, "prompts": []}]}`, returned when no stored
version is found (lines 173-174 and 286-287). -/
def scaffold (appName : String) : PromptDoc := PromptDoc.mk [AppRec.mk appName (some [])]

/-- Python `max(contents, key=lambda x: x["Key"])`: first maximal element. -/
def maxByKey : List StoredBlob → Option StoredBlob
  | [] => none
  | o :: os => some (os.foldl (fun best x => if strLtB best.key x.key then x else best) o)

/-- The candidate listing computed by `download_latest_from_s3`
(lines 167-171): keys under the app prefix, falling back to the bare
`"prompt_repo_"` prefix when none match. -/
def s3_latest_candidates (store : List StoredBlob) (appName : String) : List StoredBlob :=
  let contents := store.filter (fun o => startsWithS o.key ( get_blob_prefix appName))
  if contents.isEmpty then store.filter (fun o => startsWithS o.key "prompt_repo_") else contents

/-- The candidate listing computed by `download_latest_from_azure`
(line 285): keys under the app prefix, no fallback. -/
def azure_latest_candidates (store : List StoredBlob) (appName : String) : List StoredBlob :=
  store.filter (fun o => startsWithS o.key ( get_blob_prefix appName))

/-- `download_latest_from_s3` (lines 160-185). `requestFailed` models a raised
storage/connectivity error; a `none` blob models `json.loads` raising. -/
def download_latest_from_s3 (requestFailed : Bool) (store : List StoredBlob)
    (appName : String) : PromptDoc :=
  if requestFailed then failMarker
  else
    match maxByKey (s3_latest_candidates store appName) with
    | none => scaffold appName
    | some obj =>
      match obj.blob with
      | some doc => doc
      | none => failMarker

/-- `download_latest_from_azure` (lines 279-294). -/
def download_latest_from_azure (requestFailed : Bool) (store : List StoredBlob)
    (appName : String) : PromptDoc :=
  if requestFailed then failMarker
  else
    match maxByKey (azure_latest_candidates store appName) with
    | none => scaffold appName
    | some obj =>
      match obj.blob with
      | some doc => doc
      | none => failMarker

/-- Object-store put: replaces the content of an existing key, else appends
(the semantics of `s3.put_object` and of `upload_blob(..., overwrite=True)`). -/
def putObject (store : List StoredBlob) (key : String) (doc : PromptDoc) : List StoredBlob :=
  if store.any (fun o => o.key == key)
  then store.map (fun o => if o.key == key then StoredBlob.mk key (some doc) else o)
  else store ++ [StoredBlob.mk key (some doc)]

/-- `upload_to_s3` (lines 187-209), as a transformation of the stored state. -/
def upload_to_s3 (store : List StoredBlob) (appName : String) (t : Timestamp)
    (doc : PromptDoc) : List StoredBlob :=
  putObject store (upload_key_s3 appName t) doc

/-- `upload_to_azure` (lines 296-316), as a transformation of the stored state. -/
def upload_to_azure (store : List StoredBlob) (appName : String) (t : Timestamp)
    (doc : PromptDoc) : List StoredBlob :=
  putObject store (upload_key_azure appName t) doc

/-- Insertion step of Python `sorted(..., reverse=True)` on keys. -/
def insertDesc (x : String) : List String → List String
  | [] => [x]
  | y :: ys => if strLtB x y then y :: insertDesc x ys else x :: y :: ys

/-- Descending sort by key, as `sorted(contents, key=..., reverse=True)`. -/
def sortDescKeys (l : List String) : List String := l.foldr insertDesc []

/-- `fetch_previous_from_s3` (lines 211-229): same listing plus bare-prefix
fallback as `download_latest_from_s3`, sorted descending by key. -/
def fetch_previous_from_s3 (requestFailed : Bool) (store : List StoredBlob)
    (appName : String) : List String :=
  if requestFailed then []
  else
    let contents := store.filter (fun o => startsWithS o.key ( get_blob_prefix appName))
    let contents2 := if contents.isEmpty then
      store.filter (fun o => startsWithS o.key "prompt_repo_") else contents
    if contents2.isEmpty then [] else sortDescKeys (contents2.map (fun o => o.key))

/-- `fetch_previous_from_azure` (lines 318-329): listing under the app prefix
(no fallback, exactly as `download_latest_from_azure`), sorted descending. -/
def fetch_previous_from_azure (requestFailed : Bool) (store : List StoredBlob)
    (appName : String) : List String :=
  if requestFailed then []
  else sortDescKeys ((store.filter
    (fun o => startsWithS o.key ( get_blob_prefix appName))).map (fun o => o.key))

theorem mem_insertDesc (x z : String) : ∀ l : List String,
    z ∈ insertDesc x l → z = x ∨ z ∈ l
  | [] => by
    intro h
    simp only [insertDesc, List.mem_singleton] at h
    exact Or.inl h
  | y :: ys => by
    intro h
    simp only [insertDesc] at h
    by_cases hc : strLtB x y = true
    · rw [if_pos hc] at h
      rcases List.mem_cons.mp h with h1 | h2
      · exact Or.inr (List.mem_cons.mpr (Or.inl h1))
      · rcases mem_insertDesc x z ys h2 with h3 | h4
        · exact Or.inl h3
        · exact Or.inr (List.mem_cons.mpr (Or.inr h4))
    · rw [if_neg hc] at h
      rcases List.mem_cons.mp h with h1 | h2
      · exact Or.inl h1
      · exact Or.inr h2

theorem pairwise_insertDesc (x : String) : ∀ l : List String,
    List.Pairwise (fun a b => strLtB a b = false) l →
    List.Pairwise (fun a b => strLtB a b = false) (insertDesc x l)
  | [], _ => by simp [insertDesc]
  | y :: ys, hp => by
    rw [List.pairwise_cons] at hp
    obtain ⟨hy, hys⟩ := hp
    simp only [insertDesc]
    by_cases hc : strLtB x y = true
    · rw [if_pos hc]
      rw [List.pairwise_cons]
      refine ⟨?_, pairwise_insertDesc x ys hys⟩
      intro z hz
      rcases mem_insertDesc x z ys hz with rfl | hzys
      · exact listLtB_asymm _ _ hc
      · exact hy z hzys
    · rw [if_neg hc]
      rw [List.pairwise_cons]
      refine ⟨?_, List.pairwise_cons.mpr ⟨hy, hys⟩⟩
      intro z hz
      rcases List.mem_cons.mp hz with rfl | hzys
      · exact Bool.eq_false_iff.mpr hc
      · exact listLtB_false_trans _ _ _ (Bool.eq_false_iff.mpr hc) (hy z hzys)

theorem pairwise_sortDescKeys (l : List String) :
    List.Pairwise (fun a b => strLtB a b = false) (sortDescKeys l) := by
  induction l with
  | nil => simp [sortDescKeys]
  | cons a l ih => exact pairwise_insertDesc a _ ih

theorem perm_insertDesc (x : String) : ∀ l : List String,
    List.Perm (insertDesc x l) (x :: l)
  | [] => List.Perm.refl _
  | y :: ys => by
    simp only [insertDesc]
    by_cases hc : strLtB x y = true
    · rw [if_pos hc]
      exact ((perm_insertDesc x ys).cons y).trans (List.Perm.swap x y ys)
    · rw [if_neg hc]

theorem perm_sortDescKeys (l : List String) : List.Perm (sortDescKeys l) l := by
  induction l with
  | nil => exact List.Perm.refl _
  | cons a l ih => exact (perm_insertDesc a (sortDescKeys l)).trans (ih.cons a)

/- ===== Claims C1, C2, C3, C6, C9 ===== -/

/-- Claim C1: for every application identifier the minted version key equals
`{prefix}{yyyyMMdd_HHmmss}.json`, where the prefix is `"prompt_repo_"` exactly
when the lower-cased identifier is "mmx" and `"{app}_prompt_repo_"` otherwise
(and the Azure blob name is minted identically); and for chronologically
ordered valid timestamps the later key is lexicographically greater. -/
theorem C1_version_key_format_and_ordering (app : String) (t1 t2 : Timestamp)
    (h1 : t1.Valid) (h2 : t2.Valid) (h12 : Timestamp.Lt t1 t2) :
    upload_key_s3 app t1 = get_blob_prefix app ++ fmtTimestampStr t1 ++ ".json" ∧
    upload_key_azure app t1 = upload_key_s3 app t1 ∧
    strLtB (upload_key_s3 app t1) (upload_key_s3 app t2) = true := by
  refine ⟨?_, rfl, ?_⟩
  · unfold upload_key_s3 get_blob_prefix
    by_cases hm : lowerS app = "mmx"
    · rw [if_pos hm, if_pos hm]
    · rw [if_neg hm, if_neg hm]
  · have hfmt := fmtTimestamp_ltB t1 t2 h1 h2 h12
    unfold strLtB upload_key_s3
    by_cases hm : lowerS app = "mmx"
    · rw [if_pos hm, if_pos hm]
      simp only [String.data_append]
      rw [List.append_assoc]
      rw [List.append_assoc]
      exact key_ltB_of_fmt_ltB _ _ _ _ hfmt
    · rw [if_neg hm, if_neg hm]
      simp only [String.data_append]
      rw [List.append_assoc ((lowerS app).data ++ "_prompt_repo_".data)]
      rw [List.append_assoc ((lowerS app).data ++ "_prompt_repo_".data)]
      exact key_ltB_of_fmt_ltB _ _ _ _ hfmt

theorem C1_witness :
    (Timestamp.mk 2024 12 31 23 59 58).Valid ∧ (Timestamp.mk 2025 1 1 0 0 0).Valid ∧
    Timestamp.Lt (Timestamp.mk 2024 12 31 23 59 58) (Timestamp.mk 2025 1 1 0 0 0) ∧
    (upload_key_s3 "FAST" (Timestamp.mk 2024 12 31 23 59 58) =
      get_blob_prefix "FAST" ++ fmtTimestampStr (Timestamp.mk 2024 12 31 23 59 58) ++ ".json" ∧
     upload_key_azure "FAST" (Timestamp.mk 2024 12 31 23 59 58) =
      upload_key_s3 "FAST" (Timestamp.mk 2024 12 31 23 59 58) ∧
     strLtB (upload_key_s3 "FAST" (Timestamp.mk 2024 12 31 23 59 58))
      (upload_key_s3 "FAST" (Timestamp.mk 2025 1 1 0 0 0)) = true) :=
  ⟨by decide, by decide, by decide,
    C1_version_key_format_and_ordering "FAST" _ _ (by decide) (by decide) (by decide)⟩

/-- Claim C2 counterexample: the app "fast" has zero stored versions (the one
stored key does not carry its prefix), yet the S3 fetch-latest returns the
legacy bare-prefix document instead of the scaffold for "fast". -/
theorem C2_counterexample :
    startsWithS "prompt_repo_20240101_000000.json" ( get_blob_prefix "fast") = false ∧
    download_latest_from_s3 false
      [StoredBlob.mk "prompt_repo_20240101_000000.json"
        (some (PromptDoc.mk [AppRec.mk "mmx" (some [])]))]
      "fast" ≠ scaffold "fast" := by decide

/-- Claim C2 (amended): fetch-latest returns exactly the scaffold when the
backend's candidate listing is empty — on Azure, when no stored key matches
the application's prefix; on S3, when additionally no key matches the bare
legacy fallback `"prompt_repo_"` (in particular for an empty store). -/
theorem C2_amended_scaffold_on_empty_selection (appName : String) (store : List StoredBlob) :
    (azure_latest_candidates store appName = [] →
      download_latest_from_azure false store appName = scaffold appName) ∧
    (s3_latest_candidates store appName = [] →
      download_latest_from_s3 false store appName = scaffold appName) := by
  constructor
  · intro h
    simp [download_latest_from_azure, h, maxByKey]
  · intro h
    simp [download_latest_from_s3, h, maxByKey]

theorem C2_amended_witness :
    azure_latest_candidates [] "fast" = [] ∧ s3_latest_candidates [] "fast" = [] ∧
    download_latest_from_azure false [] "fast" = scaffold "fast" ∧
    download_latest_from_s3 false [] "fast" = scaffold "fast" :=
  ⟨rfl, rfl, (C2_amended_scaffold_on_empty_selection "fast" []).1 rfl,
    (C2_amended_scaffold_on_empty_selection "fast" []).2 rfl⟩

/-- Claim C3: the code violates write-once history. Uploading for "mmx" at the
timestamp 2024-01-01 00:00:00 mints exactly the key already stored, and the
put (S3 `put_object`, Azure `overwrite=True`) replaces the prior content: the
prior version's content is lost. -/
theorem C3_same_second_collision_overwrites :
    upload_to_s3
      [StoredBlob.mk "prompt_repo_20240101_000000.json"
        (some (PromptDoc.mk [AppRec.mk "mmx" (some [PromptRec.mk "P" "" "" ["old line"]])]))]
      "mmx" (Timestamp.mk 2024 1 1 0 0 0)
      (PromptDoc.mk [AppRec.mk "mmx" (some [])]) =
      [StoredBlob.mk "prompt_repo_20240101_000000.json"
        (some (PromptDoc.mk [AppRec.mk "mmx" (some [])]))] ∧
    PromptDoc.mk [AppRec.mk "mmx" (some [PromptRec.mk "P" "" "" ["old line"]])] ≠
      PromptDoc.mk [AppRec.mk "mmx" (some [])] := by decide

/-- Claim C6: both list-versions functions return the stored keys in
descending lexicographic order, and the listed key multiset is exactly the
candidate selection used by the corresponding fetch-latest function (same
prefix rule; same bare-prefix fallback on S3, none on Azure). -/
theorem C6_list_versions_descending_same_selection (appName : String)
    (store : List StoredBlob) :
    List.Pairwise (fun a b => strLtB a b = false) (fetch_previous_from_s3 false store appName) ∧
    List.Pairwise (fun a b => strLtB a b = false)
      (fetch_previous_from_azure false store appName) ∧
    List.Perm (fetch_previous_from_s3 false store appName)
      ((s3_latest_candidates store appName).map (fun o => o.key)) ∧
    List.Perm (fetch_previous_from_azure false store appName)
      ((azure_latest_candidates store appName).map (fun o => o.key)) := by
  have hs3 : fetch_previous_from_s3 false store appName =
      if (s3_latest_candidates store appName).isEmpty then []
      else sortDescKeys ((s3_latest_candidates store appName).map (fun o => o.key)) := rfl
  have haz : fetch_previous_from_azure false store appName =
      sortDescKeys ((azure_latest_candidates store appName).map (fun o => o.key)) := rfl
  refine ⟨?_, ?_, ?_, ?_⟩
  · rw [hs3]
    by_cases he : (s3_latest_candidates store appName).isEmpty = true
    · rw [if_pos he]
      exact List.Pairwise.nil
    · rw [if_neg he]
      exact pairwise_sortDescKeys _
  · rw [haz]
    exact pairwise_sortDescKeys _
  · rw [hs3]
    by_cases he : (s3_latest_candidates store appName).isEmpty = true
    · rw [if_pos he]
      rw [List.isEmpty_iff.mp he]
      exact List.Perm.refl _
    · rw [if_neg he]
      exact perm_sortDescKeys _
  · rw [haz]
    exact perm_sortDescKeys _

/-- Claim C9: on a raised storage error, and on a JSON parse failure of the
selected latest object, both fetch-latest functions return the failure marker
`{"APPS": []}`, which differs from the empty scaffold (whose APPS list holds
one Application record). -/
theorem C9_failure_marker_distinct_from_scaffold (appName : String)
    (store : List StoredBlob) (obj1 obj2 : StoredBlob)
    (h1 : maxByKey (s3_latest_candidates store appName) = some obj1)
    (hb1 : obj1.blob = none)
    (h2 : maxByKey (azure_latest_candidates store appName) = some obj2)
    (hb2 : obj2.blob = none) :
    download_latest_from_s3 true store appName = failMarker ∧
    download_latest_from_azure true store appName = failMarker ∧
    download_latest_from_s3 false store appName = failMarker ∧
    download_latest_from_azure false store appName = failMarker ∧
    failMarker ≠ scaffold appName ∧
    failMarker.APPS = [] := by
  refine ⟨rfl, rfl, ?_, ?_, ?_, rfl⟩
  · simp [download_latest_from_s3, h1, hb1]
  · simp [download_latest_from_azure, h2, hb2]
  · intro hcontra
    simp [failMarker, scaffold] at hcontra

theorem C9_witness :
    maxByKey (s3_latest_candidates [StoredBlob.mk "prompt_repo_20240101_000000.json" none] "mmx") =
      some (StoredBlob.mk "prompt_repo_20240101_000000.json" none) ∧
    maxByKey (azure_latest_candidates
      [StoredBlob.mk "prompt_repo_20240101_000000.json" none] "mmx") =
      some (StoredBlob.mk "prompt_repo_20240101_000000.json" none) ∧
    (download_latest_from_s3 true [StoredBlob.mk "prompt_repo_20240101_000000.json" none] "mmx" =
      failMarker ∧
     download_latest_from_azure true [StoredBlob.mk "prompt_repo_20240101_000000.json" none]
      "mmx" = failMarker ∧
     download_latest_from_s3 false [StoredBlob.mk "prompt_repo_20240101_000000.json" none]
      "mmx" = failMarker ∧
     download_latest_from_azure false [StoredBlob.mk "prompt_repo_20240101_000000.json" none]
      "mmx" = failMarker ∧
     failMarker ≠ scaffold "mmx" ∧
     failMarker.APPS = []) :=
  ⟨by decide, by decide,
    C9_failure_marker_distinct_from_scaffold "mmx"
      [StoredBlob.mk "prompt_repo_20240101_000000.json" none]
      (StoredBlob.mk "prompt_repo_20240101_000000.json" none)
      (StoredBlob.mk "prompt_repo_20240101_000000.json" none)
      (by decide) rfl (by decide) rfl⟩

/- ===== Read/write identifier indirection and editor write operations (C5) ===== -/

/-- `APP_NAME_ALIAS` (lines 19-22). -/
def APP_NAME_ALIAS : List (String × String) := [("fast", "fast1"), ("fast1", "fast")]

/-- `FORCE_MIGRATION_READ_FROM_ALIAS` (line 23): configured empty. -/
def FORCE_MIGRATION_READ_FROM_ALIAS : List (String × Bool) := []

/-- `determine_read_app_name` (lines 128-132). -/
def determine_read_app_name (uiAppName : String) : String :=
  let lower := lowerS uiAppName
  if (List.lookup lower FORCE_MIGRATION_READ_FROM_ALIAS).getD false
  then (List.lookup lower APP_NAME_ALIAS).getD lower
  else lower

/-- `determine_write_app_name` (lines 134-135). -/
def determine_write_app_name (uiAppName : String) : String := lowerS uiAppName

/-- The rename loop of `push_prompts_between_envs` step 3 (lines 549-552):
every Application whose name matches the read identifier case-insensitively is
stamped with the write identifier. -/
def push_rename_apps (readAppName writeAppName : String) (doc : PromptDoc) : PromptDoc :=
  PromptDoc.mk (doc.APPS.map (fun app =>
    if lowerS app.name = lowerS readAppName then AppRec.mk writeAppName app.prompts? else app))

/-- The identical rename loop run before the raw-JSON upload in
`page_prompt_editor` (lines 803-805). -/
def raw_json_rename_apps (readAppName writeAppName : String) (doc : PromptDoc) : PromptDoc :=
  PromptDoc.mk (doc.APPS.map (fun app =>
    if lowerS app.name = lowerS readAppName then AppRec.mk writeAppName app.prompts? else app))

/-- `next((app for app in updated_data["APPS"] if ...), None)` (line 726):
index of the first case-insensitive name match. -/
def first_match_idx (doc : PromptDoc) (readAppName : String) : Option Nat :=
  doc.APPS.findIdx? (fun app => lowerS app.name == lowerS readAppName)

def set_content_at : List PromptRec → Nat → List String → List PromptRec
  | [], _, _ => []
  | p :: ps, 0, lines => PromptRec.mk p.name p.description p.location_identifier lines :: ps
  | p :: ps, Nat.succ n, lines => p :: set_content_at ps n lines

def update_app_at : List AppRec → Nat → (AppRec → AppRec) → List AppRec
  | [], _, _ => []
  | a :: as, 0, f => f a :: as
  | a :: as, Nat.succ n, f => a :: update_app_at as n f

/-- The prompt-content save in `page_prompt_editor` (lines 718-737): locate
the first matching Application, replace `prompts[selected_prompt_index]
.content` with the edited lines and stamp `name = write_app_name`; `none`
models the error paths (no matching app, or a missing "prompts" key). -/
def save_prompt_content (readAppName writeAppName : String) (promptIdx : Nat)
    (newLines : List String) (doc : PromptDoc) : Option PromptDoc :=
  match first_match_idx doc readAppName with
  | none => none
  | some i =>
    match (doc.APPS.getD i (AppRec.mk "" none)).prompts? with
    | none => none
    | some ps => some (PromptDoc.mk (update_app_at doc.APPS i (fun _ =>
        AppRec.mk writeAppName (some (set_content_at ps promptIdx newLines)))))

theorem save_prompt_content_eq (readAppName writeAppName : String) (promptIdx : Nat)
    (newLines : List String) (doc : PromptDoc) (i : Nat)
    (hfirst : first_match_idx doc readAppName = some i) :
    save_prompt_content readAppName writeAppName promptIdx newLines doc =
      match (doc.APPS.getD i (AppRec.mk "" none)).prompts? with
      | none => none
      | some ps => some (PromptDoc.mk (update_app_at doc.APPS i (fun _ =>
          AppRec.mk writeAppName (some (set_content_at ps promptIdx newLines))))) := by
  unfold save_prompt_content
  rw [hfirst]

theorem update_app_at_get? : ∀ (l : List AppRec) (i : Nat) (f : AppRec → AppRec),
    (update_app_at l i f).get? i = Option.map f (l.get? i)
  | [], i, _ => by cases i <;> simp [update_app_at]
  | a :: as, 0, f => by simp [update_app_at]
  | a :: as, Nat.succ n, f => by
    simp only [update_app_at, List.get?_cons_succ]
    exact update_app_at_get? as n f

/-- Claim C5: every write operation (prompt-content save, raw-JSON upload,
push between environments) stamps the Application record that matched the
read identifier case-insensitively with the write identifier in its `name`
field. -/
theorem C5_write_identifier_tagging (readAppName writeAppName : String)
    (doc : PromptDoc) (i : Nat) (app : AppRec)
    (hget : doc.APPS.get? i = some app)
    (hmatch : lowerS app.name = lowerS readAppName) :
    (∃ a1, (push_rename_apps readAppName writeAppName doc).APPS.get? i = some a1 ∧
      a1.name = writeAppName) ∧
    (∃ a2, (raw_json_rename_apps readAppName writeAppName doc).APPS.get? i = some a2 ∧
      a2.name = writeAppName) ∧
    (∀ promptIdx newLines doc2, first_match_idx doc readAppName = some i →
      save_prompt_content readAppName writeAppName promptIdx newLines doc = some doc2 →
      ∃ a3, doc2.APPS.get? i = some a3 ∧ a3.name = writeAppName) := by
  refine ⟨?_, ?_, ?_⟩
  · refine ⟨AppRec.mk writeAppName app.prompts?, ?_, rfl⟩
    unfold push_rename_apps
    simp only [List.get?_map, hget, Option.map_some']
    rw [if_pos hmatch]
  · refine ⟨AppRec.mk writeAppName app.prompts?, ?_, rfl⟩
    unfold raw_json_rename_apps
    simp only [List.get?_map, hget, Option.map_some']
    rw [if_pos hmatch]
  · intro promptIdx newLines doc2 hfirst hsave
    rw [save_prompt_content_eq readAppName writeAppName promptIdx newLines doc i hfirst] at hsave
    cases hps : (doc.APPS.getD i (AppRec.mk "" none)).prompts? with
    | none =>
      rw [hps] at hsave
      have hcontra : (none : Option PromptDoc) = some doc2 := hsave
      exact absurd hcontra (by simp)
    | some ps =>
      rw [hps] at hsave
      have hsave2 : some (PromptDoc.mk (update_app_at doc.APPS i (fun _ =>
          AppRec.mk writeAppName (some (set_content_at ps promptIdx newLines))))) =
          some doc2 := hsave
      rw [Option.some.injEq] at hsave2
      subst hsave2
      refine ⟨AppRec.mk writeAppName (some (set_content_at ps promptIdx newLines)), ?_, rfl⟩
      simp only [update_app_at_get?, hget, Option.map_some']

theorem C5_witness :
    (PromptDoc.mk [AppRec.mk "fast1" (some [PromptRec.mk "P" "" "" ["x"]])]).APPS.get? 0 =
      some (AppRec.mk "fast1" (some [PromptRec.mk "P" "" "" ["x"]])) ∧
    lowerS (AppRec.mk "fast1" (some [PromptRec.mk "P" "" "" ["x"]])).name = lowerS "fast1" ∧
    first_match_idx (PromptDoc.mk [AppRec.mk "fast1" (some [PromptRec.mk "P" "" "" ["x"]])])
      "fast1" = some 0 ∧
    save_prompt_content "fast1" "fast" 0 ["y"]
      (PromptDoc.mk [AppRec.mk "fast1" (some [PromptRec.mk "P" "" "" ["x"]])]) =
      some (PromptDoc.mk [AppRec.mk "fast" (some [PromptRec.mk "P" "" "" ["y"]])]) ∧
    (∃ a1, (push_rename_apps "fast1" "fast"
      (PromptDoc.mk [AppRec.mk "fast1" (some [PromptRec.mk "P" "" "" ["x"]])])).APPS.get? 0 =
      some a1 ∧ a1.name = "fast") ∧
    (∃ a2, (raw_json_rename_apps "fast1" "fast"
      (PromptDoc.mk [AppRec.mk "fast1" (some [PromptRec.mk "P" "" "" ["x"]])])).APPS.get? 0 =
      some a2 ∧ a2.name = "fast") ∧
    (∃ a3, (PromptDoc.mk [AppRec.mk "fast" (some [PromptRec.mk "P" "" "" ["y"]])]).APPS.get? 0 =
      some a3 ∧ a3.name = "fast") :=
  ⟨rfl, rfl, by decide, by decide,
    (C5_write_identifier_tagging "fast1" "fast"
      (PromptDoc.mk [AppRec.mk "fast1" (some [PromptRec.mk "P" "" "" ["x"]])]) 0
      (AppRec.mk "fast1" (some [PromptRec.mk "P" "" "" ["x"]])) rfl rfl).1,
    (C5_write_identifier_tagging "fast1" "fast"
      (PromptDoc.mk [AppRec.mk "fast1" (some [PromptRec.mk "P" "" "" ["x"]])]) 0
      (AppRec.mk "fast1" (some [PromptRec.mk "P" "" "" ["x"]])) rfl rfl).2.1,
    (C5_write_identifier_tagging "fast1" "fast"
      (PromptDoc.mk [AppRec.mk "fast1" (some [PromptRec.mk "P" "" "" ["x"]])]) 0
      (AppRec.mk "fast1" (some [PromptRec.mk "P" "" "" ["x"]])) rfl rfl).2.2 0 ["y"]
      (PromptDoc.mk [AppRec.mk "fast" (some [PromptRec.mk "P" "" "" ["y"]])])
      (by decide) (by decide)⟩

/- ===== Metadata validator (C7) ===== -/

/-- A JSON value, as far as the metadata validator inspects it. -/
inductive JVal where
  | obj (fields : List (String × JVal))
  | arr (elems : List JVal)
  | str (s : String)
  | num (n : Int)
  | boolean (b : Bool)
  | null

/-- The distinct `(False/True, message)` results of `validate_metadata_json`,
one constructor per `return` statement (lines 47-64), carrying the values
interpolated into the message. -/
inductive ValidationResult where
  | invalidRoot
  | casingError (foundKey : String) (requiredKey : String)
  | missingRootKey (requiredKey : String)
  | invalidStructure (requiredKey : String)
  | valid
deriving DecidableEq

/-- First binding of a key in a JSON object (Python dict lookup; keys are
unique in a parsed dict, so first binding is the binding). -/
def lookupField : List (String × JVal) → String → Option JVal
  | [], _ => none
  | kv :: rest, k => if kv.1 == k then some kv.2 else lookupField rest k

/-- `validate_metadata_json` (lines 40-64). The required key is
`target_app_name.strip().upper()`; the helpful-casing probe compares each
root key lower-cased against `target_app_name.lower()` (the un-stripped
identifier, as in the source). -/
def validate_metadata_json (data : JVal) (targetAppName : String) : ValidationResult :=
  match data with
  | JVal.obj fields =>
    let requiredKey := upperS (stripS targetAppName)
    match lookupField fields requiredKey with
    | none =>
      match fields.filter (fun kv => lowerS kv.1 == lowerS targetAppName) with
      | [] => ValidationResult.missingRootKey requiredKey
      | kv :: _ => ValidationResult.casingError kv.1 requiredKey
    | some v =>
      match v with
      | JVal.arr _ => ValidationResult.valid
      | _ => ValidationResult.invalidStructure requiredKey
  | _ => ValidationResult.invalidRoot

/-- Unfolding equation for the validator on an object root. -/
theorem validate_obj_eq (fields : List (String × JVal)) (target : String) :
    validate_metadata_json (JVal.obj fields) target =
      match lookupField fields (upperS (stripS target)) with
      | none =>
        match fields.filter (fun kv => lowerS kv.1 == lowerS target) with
        | [] => ValidationResult.missingRootKey (upperS (stripS target))
        | kv :: _ => ValidationResult.casingError kv.1 (upperS (stripS target))
      | some v =>
        match v with
        | JVal.arr _ => ValidationResult.valid
        | _ => ValidationResult.invalidStructure (upperS (stripS target)) := rfl

/-- Claim C7 counterexample: for the identifier " mmx" (surrounding
whitespace), the root object lacks the upper-cased key "MMX" but contains the
key "mmx", which equals it under case-insensitive comparison; yet the
validator answers with the missing-key message, not the casing message. -/
theorem C7_counterexample :
    lowerS "mmx" = lowerS (upperS (stripS " mmx")) ∧
    lookupField [("mmx", JVal.arr [])] (upperS (stripS " mmx")) = none ∧
    validate_metadata_json (JVal.obj [("mmx", JVal.arr [])]) " mmx" =
      ValidationResult.missingRootKey "MMX" ∧
    (∀ f r, ValidationResult.missingRootKey "MMX" ≠ ValidationResult.casingError f r) := by
  refine ⟨by decide, rfl, rfl, ?_⟩
  intro f r
  exact fun h => ValidationResult.noConfusion h

/-- Claim C7 (amended): the validator accepts iff the root is an object whose
(stripped, upper-cased) application-identifier key is present with a list
value; and when that key is absent but some root key lower-cases to the
lower-cased *un-stripped* identifier, it answers with the casing-error
result, which differs from the missing-key and not-a-list results. -/
theorem C7_amended_validator_characterisation (data : JVal) (target : String) :
    (validate_metadata_json data target = ValidationResult.valid ↔
      ∃ fields, data = JVal.obj fields ∧
        ∃ elems, lookupField fields (upperS (stripS target)) = some (JVal.arr elems)) ∧
    (∀ fields k v, data = JVal.obj fields →
      lookupField fields (upperS (stripS target)) = none →
      (fields.filter (fun kv => lowerS kv.1 == lowerS target)) = (k, v) ::
        (fields.filter (fun kv => lowerS kv.1 == lowerS target)).tail →
      validate_metadata_json data target =
        ValidationResult.casingError k (upperS (stripS target)) ∧
      (∀ r, ValidationResult.casingError k (upperS (stripS target)) ≠
        ValidationResult.missingRootKey r) ∧
      (∀ r, ValidationResult.casingError k (upperS (stripS target)) ≠
        ValidationResult.invalidStructure r)) := by
  constructor
  · constructor
    · intro hv
      cases data with
      | obj fields =>
        refine ⟨fields, rfl, ?_⟩
        rw [validate_obj_eq] at hv
        cases hl : lookupField fields (upperS (stripS target)) with
        | none =>
          exfalso
          rw [hl] at hv
          cases hf : fields.filter (fun kv => lowerS kv.1 == lowerS target) with
          | nil =>
            rw [hf] at hv
            have hv2 : ValidationResult.missingRootKey (upperS (stripS target)) =
                ValidationResult.valid := hv
            exact ValidationResult.noConfusion hv2
          | cons kv rest =>
            rw [hf] at hv
            have hv2 : ValidationResult.casingError kv.1 (upperS (stripS target)) =
                ValidationResult.valid := hv
            exact ValidationResult.noConfusion hv2
        | some v =>
          rw [hl] at hv
          cases v with
          | arr elems => exact ⟨elems, rfl⟩
          | obj fs =>
            exact absurd (show ValidationResult.invalidStructure (upperS (stripS target)) =
              ValidationResult.valid from hv) (fun h => ValidationResult.noConfusion h)
          | str s =>
            exact absurd (show ValidationResult.invalidStructure (upperS (stripS target)) =
              ValidationResult.valid from hv) (fun h => ValidationResult.noConfusion h)
          | num n =>
            exact absurd (show ValidationResult.invalidStructure (upperS (stripS target)) =
              ValidationResult.valid from hv) (fun h => ValidationResult.noConfusion h)
          | boolean b =>
            exact absurd (show ValidationResult.invalidStructure (upperS (stripS target)) =
              ValidationResult.valid from hv) (fun h => ValidationResult.noConfusion h)
          | null =>
            exact absurd (show ValidationResult.invalidStructure (upperS (stripS target)) =
              ValidationResult.valid from hv) (fun h => ValidationResult.noConfusion h)
      | arr elems =>
        exact absurd (show ValidationResult.invalidRoot = ValidationResult.valid from hv)
          (fun h => ValidationResult.noConfusion h)
      | str s =>
        exact absurd (show ValidationResult.invalidRoot = ValidationResult.valid from hv)
          (fun h => ValidationResult.noConfusion h)
      | num n =>
        exact absurd (show ValidationResult.invalidRoot = ValidationResult.valid from hv)
          (fun h => ValidationResult.noConfusion h)
      | boolean b =>
        exact absurd (show ValidationResult.invalidRoot = ValidationResult.valid from hv)
          (fun h => ValidationResult.noConfusion h)
      | null =>
        exact absurd (show ValidationResult.invalidRoot = ValidationResult.valid from hv)
          (fun h => ValidationResult.noConfusion h)
    · rintro ⟨fields, rfl, elems, hl⟩
      rw [validate_obj_eq, hl]
  · rintro fields k v rfl hnone hfilter
    refine ⟨?_, ?_, ?_⟩
    · rw [validate_obj_eq, hnone, hfilter]
    · intro r h
      exact ValidationResult.noConfusion h
    · intro r h
      exact ValidationResult.noConfusion h

theorem C7_amended_witness :
    lookupField [("MMX", JVal.arr []), ("Mmx", JVal.null)] (upperS (stripS "mmx")) =
      some (JVal.arr []) ∧
    lookupField [("Mmx", JVal.null)] (upperS (stripS "mmx")) = none ∧
    ([("Mmx", JVal.null)].filter (fun kv => lowerS kv.1 == lowerS "mmx")) = ("Mmx", JVal.null) ::
      ([("Mmx", JVal.null)].filter (fun kv => lowerS kv.1 == lowerS "mmx")).tail ∧
    validate_metadata_json (JVal.obj [("MMX", JVal.arr []), ("Mmx", JVal.null)]) "mmx" =
      ValidationResult.valid ∧
    validate_metadata_json (JVal.obj [("Mmx", JVal.null)]) "mmx" =
      ValidationResult.casingError "Mmx" (upperS (stripS "mmx")) :=
  ⟨rfl, rfl, rfl,
    (C7_amended_validator_characterisation
      (JVal.obj [("MMX", JVal.arr []), ("Mmx", JVal.null)]) "mmx").1.mpr
      ⟨[("MMX", JVal.arr []), ("Mmx", JVal.null)], rfl, [], rfl⟩,
    ((C7_amended_validator_characterisation (JVal.obj [("Mmx", JVal.null)]) "mmx").2
      [("Mmx", JVal.null)] "Mmx" JVal.null rfl rfl rfl).1⟩

/- ===== REST base-URL resolver (C10) ===== -/

/-- The environment-to-URL table of `get_api_base_url` (lines 32-37). -/
def api_map : List (String × String) :=
  [("dev", "https://ciathciaidevbeca01.thankfulisland-b0727d92.eastus2.azurecontainerapps.io"),
   ("qa", "https://ciathciaitstbeca01.thankfulisland-b0727d92.eastus2.azurecontainerapps.io"),
   ("prod", "https://ciathciaiprdbeca01.thankfulisland-b0727d92.eastus2.azurecontainerapps.io"),
   ("aws", "https://ciathena.info:8000")]

/-- `get_api_base_url` (lines 30-38): `api_map.get(env, api_map["dev"])`. -/
def get_api_base_url (env : String) : String :=
  (List.lookup env api_map).getD ((List.lookup "dev" api_map).getD "")

/-- Claim C10: every environment string outside the configured table resolves
to the dev base URL, a non-empty value. -/
theorem C10_unknown_env_resolves_to_dev (env : String)
    (h : env ≠ "dev" ∧ env ≠ "qa" ∧ env ≠ "prod" ∧ env ≠ "aws") :
    get_api_base_url env =
      "https://ciathciaidevbeca01.thankfulisland-b0727d92.eastus2.azurecontainerapps.io" ∧
    get_api_base_url env ≠ "" := by
  obtain ⟨h1, h2, h3, h4⟩ := h
  have hlook : List.lookup env api_map = none := by
    simp [api_map, List.lookup, beq_eq_false_iff_ne.mpr h1, beq_eq_false_iff_ne.mpr h2,
      beq_eq_false_iff_ne.mpr h3, beq_eq_false_iff_ne.mpr h4]
  constructor
  · rw [get_api_base_url, hlook]
    rfl
  · rw [get_api_base_url, hlook]
    decide

theorem C10_witness :
    ("staging" ≠ "dev" ∧ "staging" ≠ "qa" ∧ "staging" ≠ "prod" ∧ "staging" ≠ "aws") ∧
    (get_api_base_url "staging" =
      "https://ciathciaidevbeca01.thankfulisland-b0727d92.eastus2.azurecontainerapps.io" ∧
     get_api_base_url "staging" ≠ "") :=
  ⟨by decide, C10_unknown_env_resolves_to_dev "staging" (by decide)⟩

/- ===== Line splitting and the difflib embedding (C4) ===== -/

/-- The line-boundary characters of Python `str.splitlines`. -/
def isLineBreakChar (c : Char) : Bool :=
  c == '\n' || c == '\r' || c == '\x0b' || c == '\x0c' || c == '\x1c' ||
  c == '\x1d' || c == '\x1e' || c == '\x85' || c == '\u2028' || c == '\u2029'

def splitlinesGo : List Char → List Char → List String
  | [], acc => if acc.isEmpty then [] else [String.mk acc.reverse]
  | '\r' :: '\n' :: rest, acc => String.mk (acc.reverse ++ ['\r', '\n']) :: splitlinesGo rest []
  | c :: rest, acc =>
    if isLineBreakChar c then String.mk (acc.reverse ++ [c]) :: splitlinesGo rest []
    else splitlinesGo rest (c :: acc)

/-- Python `str.splitlines(keepends=True)`. -/
def splitlinesKeepends (s : String) : List String := splitlinesGo s.data []

/-- Autojunk test of `SequenceMatcher` (with default junk argument `None`):
when `b` has at least 200 elements, elements occurring more than
`len(b) // 100 + 1` times are popular and treated as junk. -/
def bIsJunk (b : List String) (x : String) : Bool :=
  Nat.ble 200 b.length && Nat.blt (b.length / 100 + 1) (List.count x b)

/-- The `b2j` mapping: ascending positions of `x` in `b`, with popular
elements removed. -/
def b2jGet (b : List String) (x : String) : List Nat :=
  if bIsJunk b x then [] else (List.range b.length).filter (fun j => b.getD j "" == x)

structure MatchState where
  besti : Nat
  bestj : Nat
  bestsize : Nat
deriving DecidableEq

def lookupJ2 (l : List (Nat × Nat)) (k : Nat) : Nat :=
  match l.find? (fun p => p.1 == k) with
  | some p => p.2
  | none => 0

/-- Inner loop of `find_longest_match` over the b-positions of `a[i]`. -/
def flmRow (i : Nat) : List Nat → List (Nat × Nat) → List (Nat × Nat) → MatchState →
    List (Nat × Nat) × MatchState
  | [], _, newj2len, st => (newj2len, st)
  | j :: js, oldj2len, newj2len, st =>
    let k := if j = 0 then 1 else lookupJ2 oldj2len (j - 1) + 1
    let st2 := if Nat.blt st.bestsize k then MatchState.mk (i + 1 - k) (j + 1 - k) k else st
    flmRow i js oldj2len ((j, k) :: newj2len) st2

/-- Outer loop of `find_longest_match` over `i in range(alo, ahi)`. -/
def flmRows (a b : List String) (blo bhi : Nat) : List Nat → List (Nat × Nat) →
    MatchState → MatchState
  | [], _, st => st
  | i :: is, j2len, st =>
    let js := (b2jGet b (a.getD i "")).filter (fun j => Nat.ble blo j && Nat.blt j bhi)
    let res := flmRow i js j2len [] st
    flmRows a b blo bhi is res.1 res.2

/-- The two downward extension loops of `find_longest_match` (`junk` selects
the non-junk or the junk phase). Fuel bounds the iteration count. -/
def extendLow (a b : List String) (alo blo : Nat) (junk : Bool) : Nat → MatchState → MatchState
  | 0, st => st
  | Nat.succ fuel, st =>
    if Nat.blt alo st.besti && Nat.blt blo st.bestj &&
       (bIsJunk b (b.getD (st.bestj - 1) "") == junk) &&
       (a.getD (st.besti - 1) "" == b.getD (st.bestj - 1) "")
    then extendLow a b alo blo junk fuel
      (MatchState.mk (st.besti - 1) (st.bestj - 1) (st.bestsize + 1))
    else st

/-- The two upward extension loops of `find_longest_match`. -/
def extendHigh (a b : List String) (ahi bhi : Nat) (junk : Bool) : Nat → MatchState → MatchState
  | 0, st => st
  | Nat.succ fuel, st =>
    if Nat.blt (st.besti + st.bestsize) ahi && Nat.blt (st.bestj + st.bestsize) bhi &&
       (bIsJunk b (b.getD (st.bestj + st.bestsize) "") == junk) &&
       (a.getD (st.besti + st.bestsize) "" == b.getD (st.bestj + st.bestsize) "")
    then extendHigh a b ahi bhi junk fuel (MatchState.mk st.besti st.bestj (st.bestsize + 1))
    else st

/-- `SequenceMatcher.find_longest_match` on the slice `a[alo:ahi]`,
`b[blo:bhi]`. -/
def find_longest_match (a b : List String) (alo ahi blo bhi : Nat) : MatchState :=
  let st0 := flmRows a b blo bhi (List.range' alo (ahi - alo)) [] (MatchState.mk alo blo 0)
  let st1 := extendLow a b alo blo false (ahi + bhi + 1) st0
  let st2 := extendHigh a b ahi bhi false (ahi + bhi + 1) st1
  let st3 := extendLow a b alo blo true (ahi + bhi + 1) st2
  extendHigh a b ahi bhi true (ahi + bhi + 1) st3

/-- The queue-driven recursion of `get_matching_blocks`; the head of the
queue list plays the role of the top of the Python stack. -/
def matchingBlocksGo (a b : List String) : Nat → List (Nat × Nat × Nat × Nat) →
    List (Nat × Nat × Nat) → List (Nat × Nat × Nat)
  | 0, _, acc => acc
  | Nat.succ _, [], acc => acc
  | Nat.succ fuel, (alo, ahi, blo, bhi) :: queue, acc =>
    let st := find_longest_match a b alo ahi blo bhi
    if st.bestsize = 0 then matchingBlocksGo a b fuel queue acc
    else
      let q1 := if Nat.blt alo st.besti && Nat.blt blo st.bestj
        then [(alo, st.besti, blo, st.bestj)] else []
      let q2 := if Nat.blt (st.besti + st.bestsize) ahi && Nat.blt (st.bestj + st.bestsize) bhi
        then [(st.besti + st.bestsize, ahi, st.bestj + st.bestsize, bhi)] else []
      matchingBlocksGo a b fuel (q2 ++ q1 ++ queue) ((st.besti, st.bestj, st.bestsize) :: acc)

/-- Ascending lexicographic comparison of matching-block triples
(`matching_blocks.sort()`). -/
def blockLeB (x y : Nat × Nat × Nat) : Bool :=
  Nat.blt x.1 y.1 || (x.1 == y.1 &&
    (Nat.blt x.2.1 y.2.1 || (x.2.1 == y.2.1 && Nat.ble x.2.2 y.2.2)))

def insertBlock (x : Nat × Nat × Nat) : List (Nat × Nat × Nat) → List (Nat × Nat × Nat)
  | [] => [x]
  | y :: ys => if blockLeB x y then x :: y :: ys else y :: insertBlock x ys

def sortBlocks (l : List (Nat × Nat × Nat)) : List (Nat × Nat × Nat) := l.foldr insertBlock []

/-- Merging of adjacent blocks at the end of `get_matching_blocks`. -/
def mergeAdjGo : Nat → Nat → Nat → List (Nat × Nat × Nat) → List (Nat × Nat × Nat)
  | i1, j1, k1, [] => if k1 = 0 then [] else [(i1, j1, k1)]
  | i1, j1, k1, (i2, j2, k2) :: rest =>
    if i1 + k1 = i2 ∧ j1 + k1 = j2 then mergeAdjGo i1 j1 (k1 + k2) rest
    else if k1 = 0 then mergeAdjGo i2 j2 k2 rest
    else (i1, j1, k1) :: mergeAdjGo i2 j2 k2 rest

/-- `SequenceMatcher.get_matching_blocks`, ending with the `(la, lb, 0)`
sentinel. -/
def get_matching_blocks (a b : List String) : List (Nat × Nat × Nat) :=
  let blocks := sortBlocks (matchingBlocksGo a b (2 * (a.length + b.length) + 2)
    [(0, a.length, 0, b.length)] [])
  mergeAdjGo 0 0 0 blocks ++ [(a.length, b.length, 0)]

inductive DiffTag where
  | replace
  | delete
  | insert
  | equal
deriving DecidableEq

/-- One `(tag, i1, i2, j1, j2)` opcode. -/
structure Opcode where
  tag : DiffTag
  i1 : Nat
  i2 : Nat
  j1 : Nat
  j2 : Nat
deriving DecidableEq

/-- The opcode walk of `SequenceMatcher.get_opcodes`. -/
def opcodesGo : Nat → Nat → List (Nat × Nat × Nat) → List Opcode
  | _, _, [] => []
  | i, j, (ai, bj, size) :: rest =>
    let pre : List Opcode :=
      if i < ai ∧ j < bj then [Opcode.mk DiffTag.replace i ai j bj]
      else if i < ai then [Opcode.mk DiffTag.delete i ai j bj]
      else if j < bj then [Opcode.mk DiffTag.insert i ai j bj]
      else []
    let eqPart : List Opcode :=
      if size = 0 then [] else [Opcode.mk DiffTag.equal ai (ai + size) bj (bj + size)]
    pre ++ eqPart ++ opcodesGo (ai + size) (bj + size) rest

def get_opcodes (a b : List String) : List Opcode :=
  opcodesGo 0 0 (get_matching_blocks a b)

/-- `get_grouped_opcodes`: shrink a leading equal run to the context width
`n = 3`. -/
def clampFirst : List Opcode → List Opcode
  | [] => []
  | op :: rest =>
    if op.tag = DiffTag.equal
    then Opcode.mk DiffTag.equal (max op.i1 (op.i2 - 3)) op.i2 (max op.j1 (op.j2 - 3)) op.j2 :: rest
    else op :: rest

def clampLastHead : List Opcode → List Opcode
  | [] => []
  | op :: rest =>
    if op.tag = DiffTag.equal
    then Opcode.mk DiffTag.equal op.i1 (min op.i2 (op.i1 + 3)) op.j1 (min op.j2 (op.j1 + 3)) :: rest
    else op :: rest

/-- `get_grouped_opcodes`: shrink a trailing equal run. -/
def clampLast (l : List Opcode) : List Opcode := (clampLastHead l.reverse).reverse

def isSingleEqual : List Opcode → Bool
  | [op] => op.tag == DiffTag.equal
  | _ => false

/-- The grouping loop of `get_grouped_opcodes` with `n = 3`; `group` is the
accumulated current group, in reverse. -/
def groupOpcodesGo : List Opcode → List Opcode → List (List Opcode)
  | [], group => if group.isEmpty || isSingleEqual group then [] else [group.reverse]
  | op :: rest, group =>
    if op.tag == DiffTag.equal && Nat.blt 6 (op.i2 - op.i1) then
      (Opcode.mk op.tag op.i1 (min op.i2 (op.i1 + 3)) op.j1 (min op.j2 (op.j1 + 3)) ::
        group).reverse ::
      groupOpcodesGo rest
        [Opcode.mk op.tag (max op.i1 (op.i2 - 3)) op.i2 (max op.j1 (op.j2 - 3)) op.j2]
    else groupOpcodesGo rest (op :: group)

/-- `SequenceMatcher.get_grouped_opcodes(n=3)` as used by `unified_diff`. -/
def get_grouped_opcodes (a b : List String) : List (List Opcode) :=
  let codes := get_opcodes a b
  let codes2 := if codes.isEmpty then [Opcode.mk DiffTag.equal 0 1 0 1] else codes
  groupOpcodesGo (clampLast (clampFirst codes2)) []

def natDigits : Nat → Nat → List Char
  | 0, _ => []
  | Nat.succ fuel, n =>
    if n < 10 then [digitChar n] else natDigits fuel (n / 10) ++ [digitChar (n % 10)]

def natToStr (n : Nat) : String := String.mk (natDigits (n + 1) n)

/-- `difflib._format_range_unified`. -/
def formatRangeUnified (start stop : Nat) : String :=
  let beginning := start + 1
  let length := stop - start
  if length = 1 then natToStr beginning
  else natToStr (if length = 0 then beginning - 1 else beginning) ++ "," ++ natToStr length

def sliceL (l : List String) (i j : Nat) : List String := (l.take j).drop i

/-- The per-opcode line emission of `unified_diff`. -/
def opLines (a b : List String) (op : Opcode) : List String :=
  match op.tag with
  | DiffTag.equal => (sliceL a op.i1 op.i2).map (fun line => " " ++ line)
  | DiffTag.delete => (sliceL a op.i1 op.i2).map (fun line => "-" ++ line)
  | DiffTag.insert => (sliceL b op.j1 op.j2).map (fun line => "+" ++ line)
  | DiffTag.replace =>
    (sliceL a op.i1 op.i2).map (fun line => "-" ++ line) ++
      (sliceL b op.j1 op.j2).map (fun line => "+" ++ line)

/-- The hunk header and body for one group. -/
def diffGroupLines (a b : List String) (g : List Opcode) : List String :=
  let first := g.headD (Opcode.mk DiffTag.equal 0 0 0 0)
  let last := g.getLastD (Opcode.mk DiffTag.equal 0 0 0 0)
  ("@@ -" ++ formatRangeUnified first.i1 last.i2 ++ " +" ++
    formatRangeUnified first.j1 last.j2 ++ " @@") ::
  g.foldr (fun op acc => opLines a b op ++ acc) []

/-- `difflib.unified_diff(a, b, lineterm='')` with default (empty) file
names and dates: the two header lines "--- " and "+++ " are emitted before
the first group. -/
def unified_diff (a b : List String) : List String :=
  let groups := get_grouped_opcodes a b
  if groups.isEmpty then []
  else "--- " :: "+++ " :: groups.foldr (fun g acc => diffGroupLines a b g ++ acc) []

/-- `line.startswith('+') or line.startswith('-')` (line 490). -/
def startsWithPM (line : String) : Bool :=
  match line.data with
  | [] => false
  | c :: _ => c == '+' || c == '-'

/-- `changes_count` (line 490): number of diff lines beginning with `+` or
`-` — the two file-header lines included, since the source does not exclude
them. -/
def changesCount (diff : List String) : Nat := (diff.filter startsWithPM).length

/- ===== Comparison engine (C4, C8) ===== -/

/-- The value stored per prompt name by `get_prompt_dict` (lines 437-441). -/
structure PromptInfo where
  content : String
  description : String
  location_identifier : String
deriving DecidableEq

/-- Python dict assignment `prompt_dict[name] = info`: overwrite the existing
binding (last wins) or append a new one. -/
def assocSet (d : List (String × PromptInfo)) (k : String) (v : PromptInfo) :
    List (String × PromptInfo) :=
  if d.any (fun p => p.1 == k) then d.map (fun p => if p.1 == k then (k, v) else p)
  else d ++ [(k, v)]

def assocGet (d : List (String × PromptInfo)) (k : String) : Option PromptInfo :=
  match d.find? (fun p => p.1 == k) with
  | some p => some p.2
  | none => none

/-- `get_prompt_dict` (lines 429-442): empty on `None` input or a missing
"prompts" key; otherwise a name-keyed map of newline-joined content plus the
descriptive fields. -/
def get_prompt_dict (appData : Option AppRec) : List (String × PromptInfo) :=
  match appData with
  | none => []
  | some app =>
    match app.prompts? with
    | none => []
    | some ps => ps.foldl (fun d p => assocSet d p.name
        (PromptInfo.mk (joinNL p.content) p.description p.location_identifier)) []

structure CompareEntry where
  prompt_name : String
  status : String
  changes : Nat
  details : String
  diff? : Option (List String)
deriving DecidableEq

def insertNameSorted (x : String) : List String → List String
  | [] => [x]
  | y :: ys =>
    if x == y then y :: ys
    else if strLtB x y then x :: y :: ys else y :: insertNameSorted x ys

/-- `sorted(set(keys1) | set(keys2))` (lines 449-453). -/
def sortedUnionNames (l : List String) : List String := l.foldr insertNameSorted []

/-- The per-name classification of `compare_prompts` (lines 453-500). -/
def compare_entry (env1Prompts env2Prompts : List (String × PromptInfo))
    (env1Name env2Name : String) (nm : String) : CompareEntry :=
  match assocGet env1Prompts nm, assocGet env2Prompts nm with
  | none, _ =>
    CompareEntry.mk nm ("Only in " ++ env2Name) 1
      ("This prompt exists only in " ++ env2Name) none
  | some _, none =>
    CompareEntry.mk nm ("Only in " ++ env1Name) 1
      ("This prompt exists only in " ++ env1Name) none
  | some info1, some info2 =>
    if info1.content = info2.content then
      CompareEntry.mk nm "Identical" 0 "No differences found" none
    else
      CompareEntry.mk nm "Modified"
        (changesCount (unified_diff (splitlinesKeepends info1.content)
          (splitlinesKeepends info2.content)))
        (natToStr (changesCount (unified_diff (splitlinesKeepends info1.content)
          (splitlinesKeepends info2.content))) ++ " line changes detected")
        (some (unified_diff (splitlinesKeepends info1.content)
          (splitlinesKeepends info2.content)))

/-- `compare_prompts` (lines 444-502). -/
def compare_prompts (env1Data env2Data : Option AppRec) (env1Name env2Name : String) :
    List CompareEntry :=
  (sortedUnionNames ((get_prompt_dict env1Data).map (fun p => p.1) ++
    (get_prompt_dict env2Data).map (fun p => p.1))).map
    (compare_entry (get_prompt_dict env1Data) (get_prompt_dict env2Data) env1Name env2Name)

theorem get_prompt_dict_single (a : String) (p : PromptRec) :
    get_prompt_dict (some (AppRec.mk a (some [p]))) =
      [(p.name, PromptInfo.mk (joinNL p.content) p.description p.location_identifier)] := rfl

theorem compare_entry_both (d1 d2 : List (String × PromptInfo)) (e1 e2 nm : String)
    (i1 i2 : PromptInfo) (h1 : assocGet d1 nm = some i1) (h2 : assocGet d2 nm = some i2)
    (hne : i1.content ≠ i2.content) :
    compare_entry d1 d2 e1 e2 nm =
      CompareEntry.mk nm "Modified"
        (changesCount (unified_diff (splitlinesKeepends i1.content)
          (splitlinesKeepends i2.content)))
        (natToStr (changesCount (unified_diff (splitlinesKeepends i1.content)
          (splitlinesKeepends i2.content))) ++ " line changes detected")
        (some (unified_diff (splitlinesKeepends i1.content)
          (splitlinesKeepends i2.content))) := by
  have hred : compare_entry d1 d2 e1 e2 nm =
      if i1.content = i2.content then
        CompareEntry.mk nm "Identical" 0 "No differences found" none
      else
        CompareEntry.mk nm "Modified"
          (changesCount (unified_diff (splitlinesKeepends i1.content)
            (splitlinesKeepends i2.content)))
          (natToStr (changesCount (unified_diff (splitlinesKeepends i1.content)
            (splitlinesKeepends i2.content))) ++ " line changes detected")
          (some (unified_diff (splitlinesKeepends i1.content)
            (splitlinesKeepends i2.content))) := by
    unfold compare_entry
    rw [h1, h2]
  rw [hred, if_neg hne]

/-- Claim C4 (amended): for prompts with equal names and different
newline-joined content, the comparison record has status "Modified" and its
change count is the number of unified-diff lines beginning with `+` or `-`
*including* the two file-header lines `"--- "` and `"+++ "` (the source does
not exclude them). -/
theorem C4_amended_modified_count_includes_headers (p1 p2 : PromptRec) (a1 a2 e1 e2 : String)
    (hname : p1.name = p2.name)
    (hcontent : joinNL p1.content ≠ joinNL p2.content) :
    compare_prompts (some (AppRec.mk a1 (some [p1]))) (some (AppRec.mk a2 (some [p2]))) e1 e2 =
      [CompareEntry.mk p1.name "Modified"
        (changesCount (unified_diff (splitlinesKeepends (joinNL p1.content))
          (splitlinesKeepends (joinNL p2.content))))
        (natToStr (changesCount (unified_diff (splitlinesKeepends (joinNL p1.content))
          (splitlinesKeepends (joinNL p2.content)))) ++ " line changes detected")
        (some (unified_diff (splitlinesKeepends (joinNL p1.content))
          (splitlinesKeepends (joinNL p2.content))))] := by
  unfold compare_prompts
  rw [get_prompt_dict_single, get_prompt_dict_single]
  simp only [List.map_cons, List.map_nil, List.singleton_append]
  rw [← hname]
  have hsort : sortedUnionNames [p1.name, p1.name] = [p1.name] := by
    simp [sortedUnionNames, insertNameSorted]
  rw [hsort]
  simp only [List.map_cons, List.map_nil]
  have hg1 : assocGet
      [(p1.name, PromptInfo.mk (joinNL p1.content) p1.description p1.location_identifier)]
      p1.name =
      some (PromptInfo.mk (joinNL p1.content) p1.description p1.location_identifier) := by
    simp [assocGet]
  have hg2 : assocGet
      [(p1.name, PromptInfo.mk (joinNL p2.content) p2.description p2.location_identifier)]
      p1.name =
      some (PromptInfo.mk (joinNL p2.content) p2.description p2.location_identifier) := by
    simp [assocGet]
  rw [compare_entry_both _ _ _ _ _ _ _ hg1 hg2 hcontent]

/-- Claim C4 counterexample: the spec example — content `["Hi"]` against
`["Hi","!"]` — yields change count 5, not 1: the two header lines are
counted, and because `splitlines(keepends=True)` keeps the newline, "Hi" and
"Hi\n" differ, so the diff is one removed plus two added lines. -/
theorem C4_counterexample :
    compare_prompts (some (AppRec.mk "app" (some [PromptRec.mk "GREETING" "" "" ["Hi"]])))
      (some (AppRec.mk "app" (some [PromptRec.mk "GREETING" "" "" ["Hi", "!"]]))) "X" "Y" =
      [CompareEntry.mk "GREETING" "Modified" 5 "5 line changes detected"
        (some ["--- ", "+++ ", "@@ -1 +1,2 @@", "-Hi", "+Hi\n", "+!"])] ∧
    (5 : Nat) ≠ 1 := by
  refine ⟨?_, by decide⟩
  rfl

theorem C4_amended_witness :
    (PromptRec.mk "GREETING" "" "" ["Hi"]).name =
      (PromptRec.mk "GREETING" "" "" ["Hi", "!"]).name ∧
    joinNL (PromptRec.mk "GREETING" "" "" ["Hi"]).content ≠
      joinNL (PromptRec.mk "GREETING" "" "" ["Hi", "!"]).content ∧
    compare_prompts (some (AppRec.mk "a" (some [PromptRec.mk "GREETING" "" "" ["Hi"]])))
      (some (AppRec.mk "b" (some [PromptRec.mk "GREETING" "" "" ["Hi", "!"]]))) "X" "Y" =
      [CompareEntry.mk (PromptRec.mk "GREETING" "" "" ["Hi"]).name "Modified"
        (changesCount (unified_diff
          (splitlinesKeepends (joinNL (PromptRec.mk "GREETING" "" "" ["Hi"]).content))
          (splitlinesKeepends (joinNL (PromptRec.mk "GREETING" "" "" ["Hi", "!"]).content))))
        (natToStr (changesCount (unified_diff
          (splitlinesKeepends (joinNL (PromptRec.mk "GREETING" "" "" ["Hi"]).content))
          (splitlinesKeepends (joinNL (PromptRec.mk "GREETING" "" "" ["Hi", "!"]).content)))) ++
          " line changes detected")
        (some (unified_diff
          (splitlinesKeepends (joinNL (PromptRec.mk "GREETING" "" "" ["Hi"]).content))
          (splitlinesKeepends (joinNL (PromptRec.mk "GREETING" "" "" ["Hi", "!"]).content))))] :=
  ⟨rfl, by decide,
    C4_amended_modified_count_includes_headers (PromptRec.mk "GREETING" "" "" ["Hi"])
      (PromptRec.mk "GREETING" "" "" ["Hi", "!"]) "a" "b" "X" "Y" rfl (by decide)⟩

/-- Absence of application data as claimed by C8: `None`, or an object with
no "prompts" key. -/
def prompts_absent : Option AppRec → Prop
  | none => True
  | some a => a.prompts? = none

theorem get_prompt_dict_absent (d : Option AppRec) (h : prompts_absent d) :
    get_prompt_dict d = [] := by
  cases d with
  | none => rfl
  | some a =>
    have h2 : a.prompts? = none := h
    show (match a.prompts? with
      | none => ([] : List (String × PromptInfo))
      | some ps => ps.foldl (fun d p => assocSet d p.name
          (PromptInfo.mk (joinNL p.content) p.description p.location_identifier)) []) = []
    rw [h2]

/-- Claim C8: the comparison engine is total on absent application data —
`None` or an object lacking "prompts" yields an empty prompt map, and the
comparison of two such inputs is the empty result list. -/
theorem C8_comparison_total_on_absent (d1 d2 : Option AppRec) (e1 e2 : String)
    (h1 : prompts_absent d1) (h2 : prompts_absent d2) :
    get_prompt_dict d1 = [] ∧ get_prompt_dict d2 = [] ∧
    compare_prompts d1 d2 e1 e2 = [] := by
  have g1 := get_prompt_dict_absent d1 h1
  have g2 := get_prompt_dict_absent d2 h2
  refine ⟨g1, g2, ?_⟩
  unfold compare_prompts
  rw [g1, g2]
  rfl

theorem C8_witness :
    prompts_absent (none : Option AppRec) ∧ prompts_absent (some (AppRec.mk "x" none)) ∧
    (get_prompt_dict (none : Option AppRec) = [] ∧
     get_prompt_dict (some (AppRec.mk "x" none)) = [] ∧
     compare_prompts none (some (AppRec.mk "x" none)) "A" "B" = []) :=
  ⟨trivial, rfl,
    C8_comparison_total_on_absent none (some (AppRec.mk "x" none)) "A" "B" trivial rfl⟩
